import Mathlib

/-!
Verification of the recursive structural slicing engine of the `alpenstock`
repository (`alpenstock.auto_slice`).  The engine walks an arbitrarily nested
structure of mappings, sequences and arrays, finds — per array-like leaf — the
axis whose length matches a caller-supplied hint, and slices every leaf
consistently along that axis, with per-path override hooks and ambiguity
detection.  The module itself is absent from the checkout (only its tests,
docs and examples are present), so every definition below is modelled from the
specification's data model (§3), traversal algorithm (§4.1) and error
taxonomy (§7), cross-checked against the expectations pinned down by
`tests/auto_slice/test_unstructured_slice.py` and
`tests/auto_slice/test_basic_use.py`.
-/

namespace Alpenstock

/-- Modelled from the spec: one structural step of a `NodePath`
(`alpenstock.auto_slice.unstructured.NodePath`, absent from the checkout) —
either a mapping key or a sequence index (spec §3, "Path"). -/
inductive Step where
  | key (s : String)
  | idx (n : Nat)
deriving DecidableEq

/-- Modelled from the spec: a path is an ordered sequence of structural steps
from the traversal root; the root path is the empty sequence and appending a
step yields a new, longer path (spec §3, "Path"). -/
abbrev NodePath := List Step

/-- Modelled from the spec: the error taxonomy of §7 for the slicing engine
(the engine module is absent from the checkout).  `indexOutOfRange` and
`zeroStep` stand for the `IndexError`/`ValueError` that an out-of-range fancy
index or a zero slice step raises inside the array library and that propagate
to the caller; the five documented cases carry the diagnostic context §7
requires (offending path, shape, candidate axes, expected/actual lengths). -/
inductive Err where
  | axisNotFound (path : NodePath) (shape : List Nat)
  | axisAmbiguous (path : NodePath) (axes : List Nat)
  | maskLengthMismatch (path : NodePath) (expected actual : Nat)
  | unsupportedNodeType (path : NodePath)
  | invalidSelector
  | indexOutOfRange
  | zeroStep
deriving DecidableEq

/-- Modelled from the spec: the human-readable diagnostic attached to each
error, with the phrases the test-suite matches against
(`"Cannot find a proper dimension"`, `"Multiple dimension candidates"`,
`"only supports slicing semantics"`). -/
def Err.message : Err → String
  | .axisNotFound _ _ => "Cannot find a proper dimension"
  | .axisAmbiguous _ _ => "Multiple dimension candidates"
  | .maskLengthMismatch _ _ _ => "Boolean mask length mismatch"
  | .unsupportedNodeType _ => "Unsupported node type"
  | .invalidSelector => "only supports slicing semantics"
  | .indexOutOfRange => "index out of range"
  | .zeroStep => "slice step cannot be zero"

/-- Modelled from the spec: a selector is one of — a range with
start/stop/step (ordinary slice semantics, negative indices count from the
end, `none` meaning an omitted bound), an ordered sequence of integer indices
(fancy indexing, order defines output order, duplicates allowed), or a boolean
mask whose length must equal the axis length being sliced (spec §3,
"Selector"). -/
inductive Selector where
  | rng (start stop step : Option Int)
  | indices (idxs : List Int)
  | mask (bs : List Bool)

/-- Python-style element access on a list: a negative index counts from the
end, anything still out of range is an error. -/
def pyGet (xs : List α) (i : Int) : Except Err α :=
  if i < 0 then
    if i + xs.length < 0 then .error .indexOutOfRange
    else
      match xs.get? (i + xs.length).toNat with
      | some x => .ok x
      | none => .error .indexOutOfRange
  else
    match xs.get? i.toNat with
    | some x => .ok x
    | none => .error .indexOutOfRange

/-- Fancy indexing: gather the elements at the given integer positions, in the
given order, resolving negative indices from the end. -/
def gather (xs : List α) (idxs : List Int) : Except Err (List α) :=
  match idxs with
  | [] => .ok []
  | i :: rest =>
    match pyGet xs i with
    | .error e => .error e
    | .ok x =>
      match gather xs rest with
      | .error e => .error e
      | .ok ys => .ok (x :: ys)

/-- Boolean-mask compression: keep the elements at positions where the mask is
true, preserving order. -/
def maskSelect : List Bool → List α → List α
  | true :: bs, x :: xs => x :: maskSelect bs xs
  | false :: bs, _ :: xs => maskSelect bs xs
  | _, _ => []

/-- The ascending list of positions at which a boolean mask is true. -/
def truePositions : List Bool → List Nat
  | [] => []
  | b :: bs =>
    if b then 0 :: (truePositions bs).map (· + 1)
    else (truePositions bs).map (· + 1)

/-- Modelled from the spec: the index sequence denoted by a Python
`slice(start, stop, step)` applied to an axis of length `len` —
CPython's `slice.indices` clamping followed by the usual
`start, start+step, …` enumeration (spec §4.1, "range selector: supports
start/stop/step including negative indices and reversal"). -/
def pySliceIndices (start stop step : Option Int) (len : Nat) : Except Err (List Int) :=
  let st : Int := step.getD 1
  if st = 0 then .error .zeroStep
  else if st > 0 then
    let lo : Int :=
      match start with
      | none => 0
      | some s => if s < 0 then max (s + len) 0 else min s len
    let hi : Int :=
      match stop with
      | none => len
      | some s => if s < 0 then max (s + len) 0 else min s len
    .ok ((List.range ((hi - lo + st - 1) / st).toNat).map (fun i : Nat => lo + st * (i : Int)))
  else
    let lo : Int :=
      match start with
      | none => (len : Int) - 1
      | some s => if s < 0 then max (s + len) (-1) else min s ((len : Int) - 1)
    let hi : Int :=
      match stop with
      | none => -1
      | some s => if s < 0 then max (s + len) (-1) else min s ((len : Int) - 1)
    .ok ((List.range ((lo - hi + (-st) - 1) / (-st)).toNat).map (fun i : Nat => lo + st * (i : Int)))

/-- Modelled from the spec: applying a selector along one axis, presented as a
list of that axis's cells — range selectors enumerate Python slice indices and
gather, index lists gather in the given order, and a boolean mask must match
the axis length (else `MaskLengthMismatch` with path and expected/actual
lengths, spec §7) and compresses (spec §4.1 step 2, array-like leaf case). -/
def applySelector (sel : Selector) (path : NodePath) (xs : List α) : Except Err (List α) :=
  match sel with
  | .rng start stop step =>
    match pySliceIndices start stop step xs.length with
    | .error e => .error e
    | .ok idxs => gather xs idxs
  | .indices idxs => gather xs idxs
  | .mask bs =>
    if bs.length = xs.length then .ok (maskSelect bs xs)
    else .error (.maskLengthMismatch path xs.length bs.length)

/-- Modelled from the spec: a multi-dimensional rectangular array leaf
(the numpy arrays the engine slices): either a zero-dimensional scalar or a
list of cells along the leading axis, each cell itself an array. -/
inductive NDArray where
  | scalar (x : Int)
  | cells (xs : List NDArray)

/-- The shape of an array: one length per axis, read off the leading axis and
the first cell (spec §3: an array-like leaf "has a shape/dimensionality"). -/
def NDArray.shape : NDArray → List Nat
  | .scalar _ => []
  | .cells [] => [0]
  | .cells (x :: xs) => (xs.length + 1) :: x.shape

/-- The shape shared by the cells of an array's leading axis. -/
def shapeHead : List NDArray → List Nat
  | [] => []
  | x :: _ => x.shape

mutual
/-- Rectangularity: every cell has the same shape as the first one, at every
level — the well-formedness enjoyed by every real numpy array. -/
def NDArray.rect : NDArray → Bool
  | .scalar _ => true
  | .cells xs => rectList (shapeHead xs) xs

/-- All arrays in the list are rectangular and have the given shape. -/
def rectList (sh : List Nat) : List NDArray → Bool
  | [] => true
  | x :: rest => (x.shape == sh) && x.rect && rectList sh rest
end

mutual
/-- Modelled from the spec: slicing one axis of an array — axis `0` applies
the selector to the leading cells, axis `k+1` recurses into every cell
(spec §4.1: "slice along it using the selector"). -/
def NDArray.sliceAxis (sel : Selector) (path : NodePath) : Nat → NDArray → Except Err NDArray
  | 0, .cells xs => (applySelector sel path xs).map NDArray.cells
  | k + 1, .cells xs => (sliceCellList sel path k xs).map NDArray.cells
  | _, .scalar _ => .error (.unsupportedNodeType path)

/-- Slice axis `k` of every array in the list, stopping at the first error. -/
def sliceCellList (sel : Selector) (path : NodePath) (k : Nat) : List NDArray → Except Err (List NDArray)
  | [] => .ok []
  | c :: rest =>
    match c.sliceAxis sel path k with
    | .error e => .error e
    | .ok c2 =>
      match sliceCellList sel path k rest with
      | .error e => .error e
      | .ok rest2 => .ok (c2 :: rest2)
end

/-- Modelled from the spec: a node of the traversed structure — a mapping
(keys unique, output order preserved), an ordered sequence, an array-like
leaf, or a scalar leaf (integers, strings and `None` are opaque and passed
through unchanged) (spec §3, "Node"). -/
inductive Node where
  | mapping (entries : List (String × Node))
  | sequence (items : List Node)
  | arr (a : NDArray)
  | int (x : Int)
  | str (s : String)
  | null

/-- Modelled from the spec: the transient per-node traversal context carrying
the current path, the current node value, the selector and the hint, handed to
override predicates and handlers (spec §3, "Traversal context"; field names
follow the test-suite's `ctx.path`, `ctx.item`, `ctx.sl`, `ctx.hint`). -/
structure Ctx where
  path : NodePath
  item : Node
  sl : Selector
  hint : Nat

/-- Modelled from the spec: the scalar-like exception — a zero-dimensional,
length-zero or length-one array is treated as a scalar and passed through
unchanged rather than sliced (spec §4.1 step 2; the fixtures
`treat_as_scalar = np.array([1])` and `treat_as_scalar_empty = np.array([])`
of `test_unstructured_slice.py` pass through for hint 5). -/
def treatAsScalar (a : NDArray) : Bool :=
  a.shape == [] || a.shape == [0] || a.shape == [1]

/-- Modelled from the spec: every axis of the shape whose length equals the
hint (spec §4.1: "scan all axes; collect every axis whose length equals
`hint`"). -/
def candidateAxes (shape : List Nat) (hint : Nat) : List Nat :=
  match shape with
  | [] => []
  | d :: rest =>
    if d = hint then 0 :: (candidateAxes rest hint).map (· + 1)
    else (candidateAxes rest hint).map (· + 1)

/-- Whether the active override predicate matches the current node. -/
def customApplies (pred : Option (Ctx → Bool)) (path : NodePath) (node : Node)
    (sl : Selector) (hint : Nat) : Bool :=
  match pred with
  | some p => p ⟨path, node, sl, hint⟩
  | none => false

/-- Invoke the active override handler on the current node. -/
def applyCustom (handler : Option (Ctx → Except Err Node)) (path : NodePath) (node : Node)
    (sl : Selector) (hint : Nat) : Except Err Node :=
  match handler with
  | some h => h ⟨path, node, sl, hint⟩
  | none => .error (.unsupportedNodeType path)

mutual
/-- Modelled from the spec: the engine
(`alpenstock.auto_slice.unstructured.recursive_slice`, absent from the
checkout), after spec §4.1's traversal algorithm — at each node, if an
override rule is active and its predicate matches, delegate entirely to the
override handler and return its result; else classify the node: a mapping is
rebuilt key-wise (path extended by the key), a sequence element-wise (path
extended by the index), an array-like leaf passes through when scalar-like and
is otherwise sliced along the unique axis matching the hint
(`AxisNotFound` / `AxisAmbiguous` when zero or several axes match), and
scalar leaves pass through unchanged. -/
def recursive_slice (sl : Selector) (hint : Nat) (pred : Option (Ctx → Bool))
    (handler : Option (Ctx → Except Err Node)) (path : NodePath) (node : Node) :
    Except Err Node :=
  if customApplies pred path node sl hint then
    applyCustom handler path node sl hint
  else
    match node with
    | .mapping es => (sliceEntries sl hint pred handler path es).map Node.mapping
    | .sequence xs => (sliceItems sl hint pred handler path 0 xs).map Node.sequence
    | .arr a =>
      if treatAsScalar a then .ok (.arr a)
      else
        match candidateAxes a.shape hint with
        | [] => .error (.axisNotFound path a.shape)
        | [k] => (a.sliceAxis sl path k).map Node.arr
        | ks => .error (.axisAmbiguous path ks)
    | .int x => .ok (.int x)
    | .str s => .ok (.str s)
    | .null => .ok .null

/-- Recurse into a mapping's entries in order, extending the path by each key
and stopping at the first error. -/
def sliceEntries (sl : Selector) (hint : Nat) (pred : Option (Ctx → Bool))
    (handler : Option (Ctx → Except Err Node)) (path : NodePath) :
    List (String × Node) → Except Err (List (String × Node))
  | [] => .ok []
  | (k, v) :: rest =>
    match recursive_slice sl hint pred handler (path ++ [Step.key k]) v with
    | .error e => .error e
    | .ok v2 =>
      match sliceEntries sl hint pred handler path rest with
      | .error e => .error e
      | .ok rest2 => .ok ((k, v2) :: rest2)

/-- Recurse into a sequence's items in order, extending the path by each
integer index and stopping at the first error. -/
def sliceItems (sl : Selector) (hint : Nat) (pred : Option (Ctx → Bool))
    (handler : Option (Ctx → Except Err Node)) (path : NodePath) (i : Nat) :
    List Node → Except Err (List Node)
  | [] => .ok []
  | v :: rest =>
    match recursive_slice sl hint pred handler (path ++ [Step.idx i]) v with
    | .error e => .error e
    | .ok v2 =>
      match sliceItems sl hint pred handler path (i + 1) rest with
      | .error e => .error e
      | .ok rest2 => .ok (v2 :: rest2)
end

/-- Modelled from the spec: a raw subscript as handed to the public wrapper —
either a single integer position (plain indexing, rejected) or a genuine
selector (spec §7, `InvalidSelector`; `test_prohibit_indexing`). -/
inductive SliceKey where
  | int (i : Int)
  | sel (s : Selector)

/-- Modelled from the spec: the public contract
`slice_structure(value, selector, hint, override_predicate?,
override_handler?)` (spec §4.1) — a plain integer subscript is rejected up
front with `InvalidSelector`, a genuine selector starts the traversal at the
root (empty path). -/
def slice_structure (value : Node) (key : SliceKey) (hint : Nat)
    (pred : Option (Ctx → Bool)) (handler : Option (Ctx → Except Err Node)) :
    Except Err Node :=
  match key with
  | .int _ => .error .invalidSelector
  | .sel s => recursive_slice s hint pred handler [] value

mutual
/-- Well-formedness of a structure: every array-like leaf in it is
rectangular (as every real numpy array is). -/
def Node.wf : Node → Bool
  | .mapping es => wfEntries es
  | .sequence xs => wfItems xs
  | .arr a => a.rect
  | .int _ => true
  | .str _ => true
  | .null => true

/-- All entry values of a mapping are well-formed. -/
def wfEntries : List (String × Node) → Bool
  | [] => true
  | (_, v) :: rest => v.wf && wfEntries rest

/-- All items of a sequence are well-formed. -/
def wfItems : List Node → Bool
  | [] => true
  | v :: rest => v.wf && wfItems rest
end

/-- The container skeleton of a structure: mapping keys with their order,
sequence lengths at every level, and an opaque marker at every leaf. -/
inductive Skel where
  | mapping (entries : List (String × Skel))
  | sequence (items : List Skel)
  | leaf

mutual
/-- Erase a structure to its container skeleton. -/
def skel : Node → Skel
  | .mapping es => .mapping (skelEntries es)
  | .sequence xs => .sequence (skelItems xs)
  | .arr _ => .leaf
  | .int _ => .leaf
  | .str _ => .leaf
  | .null => .leaf

/-- Erase a mapping's entries to their skeletons, keeping keys and order. -/
def skelEntries : List (String × Node) → List (String × Skel)
  | [] => []
  | (k, v) :: rest => (k, skel v) :: skelEntries rest

/-- Erase a sequence's items to their skeletons, keeping order. -/
def skelItems : List Node → List Skel
  | [] => []
  | v :: rest => skel v :: skelItems rest
end

/-- A one-dimensional integer array, as the tests build with `np.array`. -/
def arr1 (xs : List Int) : NDArray :=
  .cells (xs.map NDArray.scalar)

/-- A two-dimensional integer array. -/
def arr2 (xss : List (List Int)) : NDArray :=
  .cells (xss.map arr1)

/-- The `sample_data` fixture of `test_unstructured_slice.py`. -/
def sampleData : Node :=
  .mapping
    [("a", .arr (arr1 [1, 2, 3, 4, 5])),
     ("b", .arr (arr2 [[10, 20], [30, 40], [50, 60], [70, 80], [90, 100]])),
     ("nested", .mapping [("x", .arr (arr2 [[1, 2, 3, 4, 5]]))]),
     ("scalar", .int 42),
     ("treat_as_scalar", .arr (arr1 [1])),
     ("treat_as_scalar_empty", .arr (arr1 [])),
     ("array", .sequence
        [.arr (arr1 [100, 200, 300, 400, 500]),
         .arr (.cells [.cells [.cells (([1, 2, 3, 4, 5] : List Int).map NDArray.scalar)]])])]

/-!
Sanity anchors: the modelled selector semantics and engine reproduce, by
computation, the concrete expectations of `test_python_slice`,
`test_fancy_slice` and `test_recursive_slice_basic`.
-/

example : applySelector (.rng (some 1) (some 4) none) [] [1, 2, 3, 4, 5] = .ok [2, 3, 4] := rfl
example : applySelector (.rng none none (some 2)) [] [1, 1, 4, 5, 1, 4] = .ok [1, 4, 1] := rfl
example : applySelector (.rng none none (some (-1))) [] [1, 1, 4, 5, 1, 4] = .ok [4, 1, 5, 4, 1, 1] := rfl
example : applySelector (.rng (some (-1)) none none) [] [1, 1, 4, 5, 1, 4] = .ok [4] := rfl
example : applySelector (.rng none (some (-3)) none) [] [1, 1, 4, 5, 1, 4] = .ok [1, 1, 4] := rfl
example : applySelector (.indices [0, 3, 2, -1]) [] [1, 1, 4, 5, 1, 4] = .ok [1, 5, 4, 4] := rfl
example : applySelector (.mask [true, false, true, false, false, true]) [] [1, 1, 4, 5, 1, 4] = .ok [1, 4, 4] := rfl

example :
    (arr2 [[1, 2, 3, 4, 5]]).sliceAxis (.rng (some 1) (some 4) none) [] 1 =
    .ok (arr2 [[2, 3, 4]]) := rfl

example :
    (arr2 [[10, 20], [30, 40], [50, 60], [70, 80], [90, 100]]).sliceAxis
      (.rng (some 1) (some 4) none) [] 0 =
    .ok (arr2 [[30, 40], [50, 60], [70, 80]]) := rfl

theorem NDArray.shape_cells (xs : List NDArray) :
    (NDArray.cells xs).shape = xs.length :: shapeHead xs := by
  cases xs <;> rfl

/-- `test_recursive_slice_basic`: every leaf of the fixture sliced with
`slice(1, 4)` and hint `5`, scalar-like leaves passed through. -/
example :
    recursive_slice (.rng (some 1) (some 4) none) 5 none none [] sampleData =
    .ok (.mapping
      [("a", .arr (arr1 [2, 3, 4])),
       ("b", .arr (arr2 [[30, 40], [50, 60], [70, 80]])),
       ("nested", .mapping [("x", .arr (arr2 [[2, 3, 4]]))]),
       ("scalar", .int 42),
       ("treat_as_scalar", .arr (arr1 [1])),
       ("treat_as_scalar_empty", .arr (arr1 [])),
       ("array", .sequence
          [.arr (arr1 [200, 300, 400]),
           .arr (.cells [.cells [.cells (([2, 3, 4] : List Int).map NDArray.scalar)]])])]) := rfl

/-!
Helper lemmas about axis scanning and the engine's case analysis.
-/

theorem length_candidateAxes (shape : List Nat) (hint : Nat) :
    (candidateAxes shape hint).length = shape.count hint := by
  induction shape with
  | nil => rfl
  | cons d rest ih =>
    by_cases hd : d = hint <;>
      simp [candidateAxes, hd, List.count_cons, ih, Nat.add_comm]

theorem candidateAxes_eq_nil (shape : List Nat) (hint : Nat) (h : hint ∉ shape) :
    candidateAxes shape hint = [] := by
  have hcount : shape.count hint = 0 := List.count_eq_zero.mpr h
  have := length_candidateAxes shape hint
  rw [hcount] at this
  exact List.length_eq_zero.mp this

theorem mem_candidateAxes (shape : List Nat) (hint k : Nat)
    (h : k ∈ candidateAxes shape hint) :
    k < shape.length ∧ shape.getD k 0 = hint := by
  induction shape generalizing k with
  | nil => simp [candidateAxes] at h
  | cons d rest ih =>
    by_cases hd : d = hint
    · simp only [candidateAxes, if_pos hd, List.mem_cons, List.mem_map] at h
      rcases h with h0 | ⟨j, hj, hjk⟩
      · subst h0; simpa using hd
      · rcases ih j hj with ⟨hlt, hget⟩
        subst hjk
        exact ⟨by simpa using hlt, by simpa using hget⟩
    · simp only [candidateAxes, if_neg hd, List.mem_map] at h
      rcases h with ⟨j, hj, hjk⟩
      rcases ih j hj with ⟨hlt, hget⟩
      subst hjk
      exact ⟨by simpa using hlt, by simpa using hget⟩

theorem treatAsScalar_shapes (a : NDArray) (h : treatAsScalar a = true) :
    a.shape = [] ∨ a.shape = [0] ∨ a.shape = [1] := by
  have h2 := h
  simp only [treatAsScalar, Bool.or_eq_true, beq_iff_eq] at h2
  tauto

theorem recursive_slice_arr (sl : Selector) (hint : Nat) (path : NodePath) (a : NDArray) :
    recursive_slice sl hint none none path (.arr a) =
      (if treatAsScalar a then .ok (.arr a)
       else
         match candidateAxes a.shape hint with
         | [] => .error (.axisNotFound path a.shape)
         | [k] => (a.sliceAxis sl path k).map Node.arr
         | ks => .error (.axisAmbiguous path ks)) := rfl

theorem pyGet_cons_succ (x : α) (xs : List α) (i : Int) (h : 0 ≤ i) :
    pyGet (x :: xs) (i + 1) = pyGet xs i := by
  unfold pyGet
  rw [if_neg (by omega : ¬ i + 1 < 0), if_neg (by omega : ¬ i < 0)]
  have ht : (i + 1).toNat = i.toNat + 1 := by omega
  rw [ht]
  rfl

theorem pyGet_nonneg (xs : List α) (i : Int) (h0 : 0 ≤ i) (h1 : i.toNat < xs.length) :
    pyGet xs i = .ok (xs.get ⟨i.toNat, h1⟩) := by
  unfold pyGet
  rw [if_neg (by omega : ¬ i < 0), List.get?_eq_get h1]

theorem gather_cons_shift (x : α) (xs : List α) (idxs : List Int)
    (h : ∀ i ∈ idxs, 0 ≤ i) :
    gather (x :: xs) (idxs.map (fun i => i + 1)) = gather xs idxs := by
  induction idxs with
  | nil => rfl
  | cons i rest ih =>
    have hi : 0 ≤ i := h i (List.mem_cons_self i rest)
    have hrest : ∀ j ∈ rest, 0 ≤ j := fun j hj => h j (List.mem_cons_of_mem i hj)
    simp only [List.map_cons, gather]
    rw [pyGet_cons_succ x xs i hi, ih hrest]

theorem gather_ok (xs : List α) (idxs : List Int) (g : Int → α)
    (h : ∀ i ∈ idxs, pyGet xs i = .ok (g i)) :
    gather xs idxs = .ok (idxs.map g) := by
  induction idxs with
  | nil => rfl
  | cons i rest ih =>
    have hi := h i (List.mem_cons_self i rest)
    have hrest : ∀ j ∈ rest, pyGet xs j = .ok (g j) :=
      fun j hj => h j (List.mem_cons_of_mem i hj)
    simp only [gather, hi, ih hrest, List.map_cons]

theorem gather_truePositions {α : Type} (bs : List Bool) (xs : List α)
    (h : bs.length = xs.length) :
    gather xs ((truePositions bs).map Int.ofNat) = .ok (maskSelect bs xs) := by
  induction bs generalizing xs with
  | nil =>
    cases xs with
    | nil => rfl
    | cons x xs2 => simp at h
  | cons b rest ih =>
    cases xs with
    | nil => simp at h
    | cons x xs2 =>
      have h2 : rest.length = xs2.length := by simpa using h
      have hcomm : ((truePositions rest).map (· + 1)).map Int.ofNat =
          ((truePositions rest).map Int.ofNat).map (fun i => i + 1) := by
        simp [List.map_map, Function.comp, Int.ofNat_succ]
      have hnn : ∀ i ∈ (truePositions rest).map Int.ofNat, 0 ≤ i := by
        intro i hi
        rcases List.mem_map.mp hi with ⟨n, _, rfl⟩
        exact Int.ofNat_nonneg n
      cases b
      · show gather (x :: xs2) (((truePositions rest).map (· + 1)).map Int.ofNat) =
          .ok (maskSelect rest xs2)
        rw [hcomm, gather_cons_shift x xs2 _ hnn, ih xs2 h2]
      · show gather (x :: xs2) ((0 :: (truePositions rest).map (· + 1)).map Int.ofNat) =
          .ok (x :: maskSelect rest xs2)
        simp only [List.map_cons]
        have hx : pyGet (x :: xs2) (Int.ofNat 0) = .ok x := rfl
        simp only [gather, hx]
        rw [hcomm, gather_cons_shift x xs2 _ hnn, ih xs2 h2]

/-!
The claims.
-/

/-- C1: for every array-like leaf where no axis length equals the hint,
`recursive_slice` fails with the axis-not-found error (carrying the offending
path and shape) rather than silently passing the leaf through — unless the
leaf is classified as treat-as-scalar. -/
theorem recursive_slice_axisNotFound_of_no_match
    (sl : Selector) (hint : Nat) (path : NodePath) (a : NDArray)
    (hscalar : treatAsScalar a = false) (hmem : hint ∉ a.shape) :
    recursive_slice sl hint none none path (.arr a) =
      .error (.axisNotFound path a.shape) := by
  rw [recursive_slice_arr, hscalar, candidateAxes_eq_nil a.shape hint hmem]
  rfl

/-- Witness for C1: the `test_recursive_slice_errors` input — a 2×2 leaf with
hint 5 fails with the axis-not-found error. -/
theorem recursive_slice_axisNotFound_witness :
    recursive_slice (.rng (some 0) (some 1) none) 5 none none []
      (.arr (arr2 [[1, 2], [3, 4]])) = .error (.axisNotFound [] [2, 2]) :=
  recursive_slice_axisNotFound_of_no_match (.rng (some 0) (some 1) none) 5 []
    (arr2 [[1, 2], [3, 4]]) rfl (by decide)

/-- C2: for every array-like leaf in which more than one axis has length equal
to the hint, `recursive_slice` fails with the axis-ambiguous error (carrying
the candidate axes); it never silently picks the first matching axis. -/
theorem recursive_slice_axisAmbiguous_of_multi_match
    (sl : Selector) (hint : Nat) (path : NodePath) (a : NDArray)
    (hcount : 2 ≤ a.shape.count hint) :
    recursive_slice sl hint none none path (.arr a) =
      .error (.axisAmbiguous path (candidateAxes a.shape hint)) := by
  have hlen : (candidateAxes a.shape hint).length = a.shape.count hint :=
    length_candidateAxes a.shape hint
  have hscalar : treatAsScalar a = false := by
    cases hts : treatAsScalar a
    · rfl
    · exfalso
      have hlen1 : a.shape.length ≤ 1 := by
        rcases treatAsScalar_shapes a hts with h | h | h <;> simp [h]
      have hc := List.count_le_length (a := hint) (l := a.shape)
      omega
  rw [recursive_slice_arr, hscalar]
  rcases hca : candidateAxes a.shape hint with _ | ⟨k1, t⟩
  · rw [hca] at hlen; simp at hlen; omega
  rcases t with _ | ⟨k2, t2⟩
  · rw [hca] at hlen; simp at hlen; omega
  · rfl

/-- Witness for C2: the `test_recursive_slice_errors` input — a 2×2 leaf with
hint 2 fails with the axis-ambiguous error naming both axes. -/
theorem recursive_slice_axisAmbiguous_witness :
    recursive_slice (.rng (some 0) (some 1) none) 2 none none []
      (.arr (arr2 [[1, 2], [3, 4]])) = .error (.axisAmbiguous [] [0, 1]) :=
  recursive_slice_axisAmbiguous_of_multi_match (.rng (some 0) (some 1) none) 2 []
    (arr2 [[1, 2], [3, 4]]) (by decide)

/-- C3: at every node where the override predicate returns true, the engine
returns the override handler's value verbatim as the result for that subtree;
default classification, recursion and slicing are not applied there. -/
theorem recursive_slice_override_verbatim
    (sl : Selector) (hint : Nat) (p : Ctx → Bool) (h : Ctx → Except Err Node)
    (path : NodePath) (node : Node)
    (hp : p ⟨path, node, sl, hint⟩ = true) :
    recursive_slice sl hint (some p) (some h) path node =
      h ⟨path, node, sl, hint⟩ := by
  cases node <;> simp [recursive_slice, customApplies, applyCustom, hp]

/-- Witness for C3: `test_custom_slicer`'s first rule — a predicate matching
the path `/treat_as_scalar` with a handler returning `None`: the engine
returns `None` verbatim, not the sliced leaf. -/
theorem recursive_slice_override_verbatim_witness :
    recursive_slice (.rng (some 1) (some 4) none) 5
      (some (fun ctx => ctx.path == [Step.key "treat_as_scalar"]))
      (some (fun _ => .ok .null))
      [Step.key "treat_as_scalar"] (.arr (arr1 [1, 2, 3, 4, 5])) = .ok .null :=
  recursive_slice_override_verbatim (.rng (some 1) (some 4) none) 5
    (fun ctx => ctx.path == [Step.key "treat_as_scalar"]) (fun _ => .ok .null)
    [Step.key "treat_as_scalar"] (.arr (arr1 [1, 2, 3, 4, 5])) (by decide)

/-- C7: passing a single integer position instead of a slice-like selector
fails with the `InvalidSelector` error, which is a different error from
`AxisNotFound` and explains that only slicing semantics are supported. -/
theorem slice_structure_rejects_plain_index :
    (∀ (value : Node) (i : Int) (hint : Nat) (pred : Option (Ctx → Bool))
        (handler : Option (Ctx → Except Err Node)),
        slice_structure value (.int i) hint pred handler = .error .invalidSelector) ∧
    (∀ (path : NodePath) (shape : List Nat),
        Err.invalidSelector ≠ Err.axisNotFound path shape) ∧
    Err.message .invalidSelector = "only supports slicing semantics" := by
  refine ⟨fun _ _ _ _ _ => rfl, fun path shape hEq => ?_, rfl⟩
  exact Err.noConfusion hEq

/-- C6: on a sliceable leaf axis, when the boolean mask is legal (its length
matches the axis length), the mask selector and the index-list selector
listing the mask's true positions in ascending order select exactly the same
elements: the mask selects positionally, an index list in its own given
order. -/
theorem applySelector_mask_eq_indices {α : Type} (bs : List Bool) (xs : List α)
    (p : NodePath) (h : bs.length = xs.length) :
    applySelector (.mask bs) p xs =
      applySelector (.indices ((truePositions bs).map Int.ofNat)) p xs := by
  show (if bs.length = xs.length then Except.ok (maskSelect bs xs)
        else Except.error (.maskLengthMismatch p xs.length bs.length)) =
    gather xs ((truePositions bs).map Int.ofNat)
  rw [if_pos h, gather_truePositions bs xs h]

/-- Witness for C6: `test_fancy_slice`'s mask
`[True, False, True, False, False, True]` on the humidities leaf
`[10, 10, 40, 50, 10, 40]` agrees with its ascending index-list form. -/
theorem applySelector_mask_eq_indices_witness :
    ([true, false, true, false, false, true] : List Bool).length =
      ([10, 10, 40, 50, 10, 40] : List Int).length ∧
    applySelector (.mask [true, false, true, false, false, true]) []
        ([10, 10, 40, 50, 10, 40] : List Int) =
      applySelector
        (.indices ((truePositions [true, false, true, false, false, true]).map Int.ofNat))
        [] [10, 10, 40, 50, 10, 40] :=
  ⟨rfl, applySelector_mask_eq_indices [true, false, true, false, false, true]
    [10, 10, 40, 50, 10, 40] [] rfl⟩

/-- Witness for C7: indexing the `sample_data` fixture with the plain integer
`0` is rejected up front, and the error differs from a concrete
`AxisNotFound`. -/
theorem slice_structure_rejects_plain_index_witness :
    slice_structure sampleData (.int 0) 5 none none = .error .invalidSelector ∧
    Err.invalidSelector ≠ Err.axisNotFound [] [2, 2] :=
  ⟨slice_structure_rejects_plain_index.1 sampleData 0 5 none none,
   slice_structure_rejects_plain_index.2.1 [] [2, 2]⟩

theorem pySliceIndices_reverse (len : Nat) :
    pySliceIndices none none (some (-1)) len =
      .ok ((List.range len).map (fun k : Nat => (len : Int) - 1 - (k : Int))) := by
  unfold pySliceIndices
  norm_num
  intro a _
  ring

theorem gather_reverse_indices {α : Type} (xs : List α) :
    gather xs ((List.range xs.length).map (fun k : Nat => (xs.length : Int) - 1 - (k : Int))) =
      .ok xs.reverse := by
  cases xs with
  | nil => rfl
  | cons x0 xs0 =>
    set l : List α := x0 :: xs0 with hl
    have hok : gather l ((List.range l.length).map (fun k : Nat => (l.length : Int) - 1 - (k : Int))) =
        .ok (((List.range l.length).map (fun k : Nat => (l.length : Int) - 1 - (k : Int))).map
          (fun j => l.getD j.toNat x0)) := by
      apply gather_ok
      intro i hi
      rcases List.mem_map.mp hi with ⟨k, hk, rfl⟩
      have hklt : k < l.length := List.mem_range.mp hk
      have h0 : 0 ≤ (l.length : Int) - 1 - (k : Int) := by omega
      have h1 : ((l.length : Int) - 1 - (k : Int)).toNat < l.length := by omega
      rw [pyGet_nonneg l _ h0 h1]
      congr 1
      exact (List.getD_eq_get l x0 h1).symm
    rw [hok]
    congr 1
    rw [List.map_map]
    apply List.ext_get
    · simp
    · intro n h1 h2
      have hn : n < l.length := by simpa using h1
      have harith : ((l.length : Int) - 1 - (n : Int)).toNat = l.length - 1 - n := by omega
      simp only [List.get_map, List.get_range, Function.comp]
      rw [harith]
      have hlt : l.length - 1 - n < l.length := by omega
      rw [List.getD_eq_get l x0 hlt]
      rw [List.get_reverse' l ⟨n, h2⟩ (by simpa using hlt)]

/-- C8: slicing any sliceable leaf axis with the reverse range selector
(`step = -1`, bounds omitted) and then reversing the result restores the
axis's original element order. -/
theorem applySelector_reverse_then_reverse {α : Type} (xs : List α) (p : NodePath) :
    Except.map List.reverse (applySelector (.rng none none (some (-1))) p xs) =
      .ok xs := by
  show Except.map List.reverse
      (match pySliceIndices none none (some (-1)) xs.length with
       | .error e => .error e
       | .ok idxs => gather xs idxs) = .ok xs
  rw [pySliceIndices_reverse xs.length]
  show Except.map List.reverse
      (gather xs ((List.range xs.length).map (fun k : Nat => (xs.length : Int) - 1 - (k : Int)))) = .ok xs
  rw [gather_reverse_indices xs]
  show Except.ok xs.reverse.reverse = Except.ok xs
  rw [List.reverse_reverse]

theorem pySliceIndices_identity (len : Nat) :
    pySliceIndices (some 0) (some len) (some 1) len =
      .ok ((List.range len).map (fun k : Nat => (k : Int))) := by
  unfold pySliceIndices
  norm_num
  rw [if_neg (by omega : ¬ ((len : Int) < 0))]
  have ht : ((len : Int)).toNat = len := by omega
  rw [ht]

theorem gather_range_identity {α : Type} (xs : List α) :
    gather xs ((List.range xs.length).map (fun k : Nat => (k : Int))) = .ok xs := by
  cases xs with
  | nil => rfl
  | cons x0 xs0 =>
    set l : List α := x0 :: xs0 with hl
    have hok : gather l ((List.range l.length).map (fun k : Nat => (k : Int))) =
        .ok (((List.range l.length).map (fun k : Nat => (k : Int))).map
          (fun j => l.getD j.toNat x0)) := by
      apply gather_ok
      intro i hi
      rcases List.mem_map.mp hi with ⟨k, hk, rfl⟩
      have hklt : k < l.length := List.mem_range.mp hk
      have h0 : 0 ≤ (k : Int) := Int.ofNat_nonneg k
      have h1 : ((k : Int)).toNat < l.length := by omega
      rw [pyGet_nonneg l _ h0 h1]
      congr 1
      exact (List.getD_eq_get l x0 h1).symm
    rw [hok]
    congr 1
    rw [List.map_map]
    apply List.ext_get
    · simp
    · intro n h1 h2
      simp only [List.get_map, List.get_range, Function.comp]
      have harith : ((n : Int)).toNat = n := by omega
      rw [harith, List.getD_eq_get l x0 h2]

theorem applySelector_identity {α : Type} (hint : Nat) (p : NodePath) (xs : List α)
    (hlen : xs.length = hint) :
    applySelector (.rng (some 0) (some hint) (some 1)) p xs = .ok xs := by
  subst hlen
  show (match pySliceIndices (some 0) (some xs.length) (some 1) xs.length with
        | .error e => Except.error e
        | .ok idxs => gather xs idxs) = .ok xs
  rw [pySliceIndices_identity xs.length]
  exact gather_range_identity xs

theorem rectList_mem (sh : List Nat) (xs : List NDArray) (hrl : rectList sh xs = true)
    (c : NDArray) (hc : c ∈ xs) : c.shape = sh ∧ c.rect = true := by
  induction xs with
  | nil => cases hc
  | cons x rest ih =>
    have hx : ((x.shape == sh) && x.rect && rectList sh rest) = true := hrl
    simp only [Bool.and_eq_true, beq_iff_eq] at hx
    rcases List.mem_cons.mp hc with h | h
    · subst h; exact ⟨hx.1.1, hx.1.2⟩
    · exact ih hx.2 h

theorem sliceCellList_identity (p : NodePath) (hint : Nat) (k : Nat)
    (ih : ∀ c : NDArray, c.rect = true → k < c.shape.length → c.shape.getD k 0 = hint →
      c.sliceAxis (.rng (some 0) (some hint) (some 1)) p k = .ok c)
    (sh : List Nat) (xs : List NDArray) (hrl : rectList sh xs = true)
    (hk : k < sh.length) (hget : sh.getD k 0 = hint) :
    sliceCellList (.rng (some 0) (some hint) (some 1)) p k xs = .ok xs := by
  induction xs with
  | nil => rfl
  | cons c rest ihl =>
    have hx : ((c.shape == sh) && c.rect && rectList sh rest) = true := hrl
    simp only [Bool.and_eq_true, beq_iff_eq] at hx
    have hc : c.sliceAxis (.rng (some 0) (some hint) (some 1)) p k = .ok c := by
      apply ih c hx.1.2
      · rw [hx.1.1]; exact hk
      · rw [hx.1.1]; exact hget
    show (match c.sliceAxis (.rng (some 0) (some hint) (some 1)) p k with
          | .error e => Except.error e
          | .ok c2 =>
            match sliceCellList (.rng (some 0) (some hint) (some 1)) p k rest with
            | .error e => Except.error e
            | .ok rest2 => Except.ok (c2 :: rest2)) = .ok (c :: rest)
    rw [hc, ihl hx.2]

theorem sliceAxis_identity (p : NodePath) (hint : Nat) :
    ∀ (k : Nat) (a : NDArray), a.rect = true → k < a.shape.length →
      a.shape.getD k 0 = hint →
      a.sliceAxis (.rng (some 0) (some hint) (some 1)) p k = .ok a := by
  intro k
  induction k with
  | zero =>
    intro a hrect hk hget
    cases a with
    | scalar x => simp [NDArray.shape] at hk
    | cells xs =>
      rw [NDArray.shape_cells] at hget
      have hlen : xs.length = hint := by simpa using hget
      show (applySelector (.rng (some 0) (some hint) (some 1)) p xs).map NDArray.cells =
        .ok (.cells xs)
      rw [applySelector_identity hint p xs hlen]
      rfl
  | succ k ihk =>
    intro a hrect hk hget
    cases a with
    | scalar x => simp [NDArray.shape] at hk
    | cells xs =>
      rw [NDArray.shape_cells] at hk hget
      have hget2 : (shapeHead xs).getD k 0 = hint := by simpa using hget
      have hk2 : k < (shapeHead xs).length := by simpa using hk
      have hrl : rectList (shapeHead xs) xs = true := hrect
      show (sliceCellList (.rng (some 0) (some hint) (some 1)) p k xs).map NDArray.cells =
        .ok (.cells xs)
      rw [sliceCellList_identity p hint k ihk (shapeHead xs) xs hrl hk2 hget2]
      rfl

theorem recursive_slice_mapping (sl : Selector) (hint : Nat) (path : NodePath)
    (es : List (String × Node)) :
    recursive_slice sl hint none none path (.mapping es) =
      (sliceEntries sl hint none none path es).map Node.mapping := rfl

theorem recursive_slice_sequence (sl : Selector) (hint : Nat) (path : NodePath)
    (xs : List Node) :
    recursive_slice sl hint none none path (.sequence xs) =
      (sliceItems sl hint none none path 0 xs).map Node.sequence := rfl

mutual
theorem identityAux_node (hint : Nat) (path : NodePath) (n m : Node)
    (hwf : n.wf = true)
    (hok : recursive_slice (.rng (some 0) (some hint) (some 1)) hint none none path n = .ok m) :
    m = n := by
  cases n with
  | mapping es =>
    rw [recursive_slice_mapping] at hok
    cases hes : sliceEntries (.rng (some 0) (some hint) (some 1)) hint none none path es with
    | error e => rw [hes] at hok; exact absurd hok (by simp [Except.map])
    | ok es2 =>
      rw [hes] at hok
      simp only [Except.map, Except.ok.injEq] at hok
      rw [← hok, identityAux_entries hint path es es2 hwf hes]
  | sequence xs =>
    rw [recursive_slice_sequence] at hok
    cases hxs : sliceItems (.rng (some 0) (some hint) (some 1)) hint none none path 0 xs with
    | error e => rw [hxs] at hok; exact absurd hok (by simp [Except.map])
    | ok xs2 =>
      rw [hxs] at hok
      simp only [Except.map, Except.ok.injEq] at hok
      rw [← hok, identityAux_items hint path 0 xs xs2 hwf hxs]
  | arr a =>
    rw [recursive_slice_arr] at hok
    cases hts : treatAsScalar a with
    | true =>
      rw [hts] at hok
      simp only [if_true, Except.ok.injEq] at hok
      exact hok.symm
    | false =>
      rw [hts] at hok
      simp only [Bool.false_eq_true, if_false] at hok
      rcases hca : candidateAxes a.shape hint with _ | ⟨k, _ | ⟨k2, t⟩⟩
      · rw [hca] at hok; exact absurd hok (by simp)
      · rw [hca] at hok
        have hok2 : Except.map Node.arr
            (a.sliceAxis (.rng (some 0) (some hint) (some 1)) path k) = Except.ok m := hok
        have hmem := mem_candidateAxes a.shape hint k (by rw [hca]; exact List.mem_singleton.mpr rfl)
        have hsl := sliceAxis_identity path hint k a hwf hmem.1 hmem.2
        rw [hsl] at hok2
        simp only [Except.map, Except.ok.injEq] at hok2
        exact hok2.symm
      · rw [hca] at hok; exact absurd hok (by simp)
  | int x => exact (Except.ok.injEq _ _).mp hok |>.symm
  | str s => exact (Except.ok.injEq _ _).mp hok |>.symm
  | null => exact (Except.ok.injEq _ _).mp hok |>.symm

theorem identityAux_entries (hint : Nat) (path : NodePath)
    (es es2 : List (String × Node)) (hwf : wfEntries es = true)
    (hok : sliceEntries (.rng (some 0) (some hint) (some 1)) hint none none path es = .ok es2) :
    es2 = es := by
  cases es with
  | nil =>
    simp only [sliceEntries, Except.ok.injEq] at hok
    exact hok.symm
  | cons kv rest =>
    obtain ⟨k, v⟩ := kv
    have hw : (v.wf && wfEntries rest) = true := hwf
    simp only [Bool.and_eq_true] at hw
    simp only [sliceEntries] at hok
    cases hv : recursive_slice (.rng (some 0) (some hint) (some 1)) hint none none
        (path ++ [Step.key k]) v with
    | error e => rw [hv] at hok; exact absurd hok (by simp)
    | ok v2 =>
      rw [hv] at hok
      cases hrest : sliceEntries (.rng (some 0) (some hint) (some 1)) hint none none path rest with
      | error e => rw [hrest] at hok; exact absurd hok (by simp)
      | ok rest2 =>
        rw [hrest] at hok
        simp only [Except.ok.injEq] at hok
        rw [← hok, identityAux_node hint (path ++ [Step.key k]) v v2 hw.1 hv,
          identityAux_entries hint path rest rest2 hw.2 hrest]

theorem identityAux_items (hint : Nat) (path : NodePath) (i : Nat)
    (xs xs2 : List Node) (hwf : wfItems xs = true)
    (hok : sliceItems (.rng (some 0) (some hint) (some 1)) hint none none path i xs = .ok xs2) :
    xs2 = xs := by
  cases xs with
  | nil =>
    simp only [sliceItems, Except.ok.injEq] at hok
    exact hok.symm
  | cons v rest =>
    have hw : (v.wf && wfItems rest) = true := hwf
    simp only [Bool.and_eq_true] at hw
    simp only [sliceItems] at hok
    cases hv : recursive_slice (.rng (some 0) (some hint) (some 1)) hint none none
        (path ++ [Step.idx i]) v with
    | error e => rw [hv] at hok; exact absurd hok (by simp)
    | ok v2 =>
      rw [hv] at hok
      cases hrest : sliceItems (.rng (some 0) (some hint) (some 1)) hint none none path
          (i + 1) rest with
      | error e => rw [hrest] at hok; exact absurd hok (by simp)
      | ok rest2 =>
        rw [hrest] at hok
        simp only [Except.ok.injEq] at hok
        rw [← hok, identityAux_node hint (path ++ [Step.idx i]) v v2 hw.1 hv,
          identityAux_items hint path (i + 1) rest rest2 hw.2 hrest]
end

/-- C4: for every valid (rectangular-leaved) input structure, slicing with the
identity full-range selector — start 0, stop the sliced-axis length (which is
always the hint), step 1 — returns a structure deep-equal to the input. -/
theorem recursive_slice_identity_selector (hint : Nat) (path : NodePath) (n m : Node)
    (hwf : n.wf = true)
    (hok : recursive_slice (.rng (some 0) (some hint) (some 1)) hint none none path n = .ok m) :
    m = n :=
  identityAux_node hint path n m hwf hok

/-- Witness for C4: the full `sample_data` fixture with hint 5 and selector
`slice(0, 5, 1)` comes back deep-equal to itself. -/
theorem recursive_slice_identity_selector_witness :
    Node.wf sampleData = true ∧
    recursive_slice (.rng (some 0) (some 5) (some 1)) 5 none none [] sampleData =
      .ok sampleData ∧
    sampleData = sampleData :=
  ⟨rfl, rfl, recursive_slice_identity_selector 5 [] sampleData sampleData rfl rfl⟩

mutual
theorem skelAux_node (sl : Selector) (hint : Nat) (path : NodePath) (n m : Node)
    (hok : recursive_slice sl hint none none path n = .ok m) :
    skel m = skel n := by
  cases n with
  | mapping es =>
    rw [recursive_slice_mapping] at hok
    cases hes : sliceEntries sl hint none none path es with
    | error e => rw [hes] at hok; exact absurd hok (by simp [Except.map])
    | ok es2 =>
      rw [hes] at hok
      simp only [Except.map, Except.ok.injEq] at hok
      rw [← hok]
      show Skel.mapping (skelEntries es2) = Skel.mapping (skelEntries es)
      rw [skelAux_entries sl hint path es es2 hes]
  | sequence xs =>
    rw [recursive_slice_sequence] at hok
    cases hxs : sliceItems sl hint none none path 0 xs with
    | error e => rw [hxs] at hok; exact absurd hok (by simp [Except.map])
    | ok xs2 =>
      rw [hxs] at hok
      simp only [Except.map, Except.ok.injEq] at hok
      rw [← hok]
      show Skel.sequence (skelItems xs2) = Skel.sequence (skelItems xs)
      rw [skelAux_items sl hint path 0 xs xs2 hxs]
  | arr a =>
    rw [recursive_slice_arr] at hok
    cases hts : treatAsScalar a with
    | true =>
      rw [hts] at hok
      simp only [if_true, Except.ok.injEq] at hok
      rw [← hok]
    | false =>
      rw [hts] at hok
      simp only [Bool.false_eq_true, if_false] at hok
      rcases hca : candidateAxes a.shape hint with _ | ⟨k, _ | ⟨k2, t⟩⟩
      · rw [hca] at hok; exact absurd hok (by simp)
      · rw [hca] at hok
        have hok2 : Except.map Node.arr (a.sliceAxis sl path k) = Except.ok m := hok
        cases hax : a.sliceAxis sl path k with
        | error e => rw [hax] at hok2; exact absurd hok2 (by simp [Except.map])
        | ok a2 =>
          rw [hax] at hok2
          simp only [Except.map, Except.ok.injEq] at hok2
          rw [← hok2]
          rfl
      · rw [hca] at hok; exact absurd hok (by simp)
  | int x =>
    rw [← (Except.ok.injEq _ _).mp hok]
  | str s =>
    rw [← (Except.ok.injEq _ _).mp hok]
  | null =>
    rw [← (Except.ok.injEq _ _).mp hok]

theorem skelAux_entries (sl : Selector) (hint : Nat) (path : NodePath)
    (es es2 : List (String × Node))
    (hok : sliceEntries sl hint none none path es = .ok es2) :
    skelEntries es2 = skelEntries es := by
  cases es with
  | nil =>
    simp only [sliceEntries, Except.ok.injEq] at hok
    rw [← hok]
  | cons kv rest =>
    obtain ⟨k, v⟩ := kv
    simp only [sliceEntries] at hok
    cases hv : recursive_slice sl hint none none (path ++ [Step.key k]) v with
    | error e => rw [hv] at hok; exact absurd hok (by simp)
    | ok v2 =>
      rw [hv] at hok
      cases hrest : sliceEntries sl hint none none path rest with
      | error e => rw [hrest] at hok; exact absurd hok (by simp)
      | ok rest2 =>
        rw [hrest] at hok
        simp only [Except.ok.injEq] at hok
        rw [← hok]
        show (k, skel v2) :: skelEntries rest2 = (k, skel v) :: skelEntries rest
        rw [skelAux_node sl hint (path ++ [Step.key k]) v v2 hv,
          skelAux_entries sl hint path rest rest2 hrest]

theorem skelAux_items (sl : Selector) (hint : Nat) (path : NodePath) (i : Nat)
    (xs xs2 : List Node)
    (hok : sliceItems sl hint none none path i xs = .ok xs2) :
    skelItems xs2 = skelItems xs := by
  cases xs with
  | nil =>
    simp only [sliceItems, Except.ok.injEq] at hok
    rw [← hok]
  | cons v rest =>
    simp only [sliceItems] at hok
    cases hv : recursive_slice sl hint none none (path ++ [Step.idx i]) v with
    | error e => rw [hv] at hok; exact absurd hok (by simp)
    | ok v2 =>
      rw [hv] at hok
      cases hrest : sliceItems sl hint none none path (i + 1) rest with
      | error e => rw [hrest] at hok; exact absurd hok (by simp)
      | ok rest2 =>
        rw [hrest] at hok
        simp only [Except.ok.injEq] at hok
        rw [← hok]
        show skel v2 :: skelItems rest2 = skel v :: skelItems rest
        rw [skelAux_node sl hint (path ++ [Step.idx i]) v v2 hv,
          skelAux_items sl hint path (i + 1) rest rest2 hrest]
end

/-- C5: whenever the engine succeeds, the output mirrors the input's container
shape — mapping keys in order and sequence lengths at every non-sliced level;
and, concretely (spec §8's example), a 2-D leaf of shape (2, 5) under key
`"b"` sliced with `range(1, 4)` and hint 5 yields shape (2, 3), leaving the
length-2 axis untouched. -/
theorem recursive_slice_preserves_skeleton :
    (∀ (sl : Selector) (hint : Nat) (path : NodePath) (n m : Node),
        recursive_slice sl hint none none path n = .ok m → skel m = skel n) ∧
    recursive_slice (.rng (some 1) (some 4) none) 5 none none []
        (.mapping [("b", .arr (arr2 [[10, 20, 30, 40, 50], [60, 70, 80, 90, 100]]))]) =
      .ok (.mapping [("b", .arr (arr2 [[20, 30, 40], [70, 80, 90]]))]) ∧
    (arr2 [[10, 20, 30, 40, 50], [60, 70, 80, 90, 100]]).shape = [2, 5] ∧
    (arr2 [[20, 30, 40], [70, 80, 90]]).shape = [2, 3] :=
  ⟨fun sl hint path n m hok => skelAux_node sl hint path n m hok, rfl, rfl, rfl⟩

/-- Witness for C5: the skeleton-preservation part applied to the concrete
(2, 5)-leaf example. -/
theorem recursive_slice_preserves_skeleton_witness :
    skel (.mapping [("b", .arr (arr2 [[20, 30, 40], [70, 80, 90]]))]) =
      skel (.mapping [("b", .arr (arr2 [[10, 20, 30, 40, 50], [60, 70, 80, 90, 100]]))]) :=
  recursive_slice_preserves_skeleton.1 (.rng (some 1) (some 4) none) 5 []
    (.mapping [("b", .arr (arr2 [[10, 20, 30, 40, 50], [60, 70, 80, 90, 100]]))])
    (.mapping [("b", .arr (arr2 [[20, 30, 40], [70, 80, 90]]))]) rfl

/-- C10: `recursive_slice` passes zero-dimensional, length-0 and length-1
array leaves through unchanged, for any hint and any selector, deciding this
from the leaf's shape alone with no override rule installed. -/
theorem recursive_slice_scalar_like_passthrough
    (sl : Selector) (hint : Nat) (path : NodePath) (a : NDArray)
    (hshape : a.shape = [] ∨ a.shape = [0] ∨ a.shape = [1]) :
    recursive_slice sl hint none none path (.arr a) = .ok (.arr a) := by
  have hts : treatAsScalar a = true := by
    rcases hshape with h | h | h <;> simp [treatAsScalar, h]
  rw [recursive_slice_arr, hts]
  rfl

/-- Witness for C10: the fixture's `treat_as_scalar = np.array([1])` passes
through unchanged for hint 5 and selector `slice(1, 4)`. -/
theorem recursive_slice_scalar_like_passthrough_witness :
    recursive_slice (.rng (some 1) (some 4) none) 5 none none []
      (.arr (arr1 [1])) = .ok (.arr (arr1 [1])) :=
  recursive_slice_scalar_like_passthrough (.rng (some 1) (some 4) none) 5 []
    (arr1 [1]) (by simp [arr1, NDArray.shape])

end Alpenstock
